import Mathlib

/-!
Verification of the memristor-sim numerical core.

This file gives a shallow embedding in Lean 4 of the simulation engine of the
repository (an adaptive Dormand-Prince RK45 scalar ODE solver with dense
output, two memristor device models, two input-signal generators, four
boundary-window functions, and the simulation orchestrator), together with
theorems about the embedded definitions.

Modelling conventions:
* JavaScript `number` values are modelled by the real numbers `ℝ`
  (exact field arithmetic; IEEE rounding is out of scope).
* `Math.pow` is modelled by `Real.rpow`, `Math.exp` / `Math.sin` /
  `Math.sinh` by the corresponding `Real` functions.
* Mutable loops are modelled by fuel-indexed structural recursion on an
  explicit loop-state record; `break` is modelled by returning without
  recursing.
* `Float64Array` output buffers are modelled as total functions `ℕ → ℝ`
  (zero-initialised, as in JavaScript); the returned arrays are read off as
  lists of the first `numPoints` entries.
* A thrown `Error` is modelled by `Except.error` with the thrown message.
-/

namespace MemristorSim

/-! ## Solver (engine/solver.ts) -/

namespace Solver

/-- Clamp x to the physically valid range [0, 1] (function clamp01). -/
noncomputable def clamp01 (x : ℝ) : ℝ := if x < 0 then 0 else if x > 1 then 1 else x

/-- Solver options with the defaults of solver.ts
(numPoints 2000, rtol 1e-8, atol 1e-10, maxSteps 500000). -/
structure SolverOptions where
  numPoints : ℕ
  rtol : ℝ
  atol : ℝ
  maxSteps : ℕ

/-- The default option record of solver.ts. -/
noncomputable def defaultOptions : SolverOptions :=
  { numPoints := 2000, rtol := 1e-8, atol := 1e-10, maxSteps := 500000 }

/-- Result of a solver run: output times and state values. -/
structure SolverResult where
  t : List ℝ
  y : List ℝ

/-! Dormand-Prince tableau constants, named as in solver.ts. -/

noncomputable def c2 : ℝ := 1 / 5
noncomputable def c3 : ℝ := 3 / 10
noncomputable def c4 : ℝ := 4 / 5
noncomputable def c5 : ℝ := 8 / 9

noncomputable def a21 : ℝ := 1 / 5
noncomputable def a31 : ℝ := 3 / 40
noncomputable def a32 : ℝ := 9 / 40
noncomputable def a41 : ℝ := 44 / 45
noncomputable def a42 : ℝ := -56 / 15
noncomputable def a43 : ℝ := 32 / 9
noncomputable def a51 : ℝ := 19372 / 6561
noncomputable def a52 : ℝ := -25360 / 2187
noncomputable def a53 : ℝ := 64448 / 6561
noncomputable def a54 : ℝ := -212 / 729
noncomputable def a61 : ℝ := 9017 / 3168
noncomputable def a62 : ℝ := -355 / 33
noncomputable def a63 : ℝ := 46732 / 5247
noncomputable def a64 : ℝ := 49 / 176
noncomputable def a65 : ℝ := -5103 / 18656
noncomputable def a71 : ℝ := 35 / 384
noncomputable def a73 : ℝ := 500 / 1113
noncomputable def a74 : ℝ := 125 / 192
noncomputable def a75 : ℝ := -2187 / 6784
noncomputable def a76 : ℝ := 11 / 84

noncomputable def e1 : ℝ := 71 / 57600
noncomputable def e3 : ℝ := -71 / 16695
noncomputable def e4 : ℝ := 71 / 1920
noncomputable def e5 : ℝ := -17253 / 339200
noncomputable def e6 : ℝ := 22 / 525
noncomputable def e7 : ℝ := -1 / 40

/-- The fixed data of one call to solve: the right-hand side f, the time
span, and the resolved options. -/
structure SolveCtx where
  f : ℝ → ℝ → ℝ
  t0 : ℝ
  tEnd : ℝ
  numPoints : ℕ
  rtol : ℝ
  atol : ℝ
  maxSteps : ℕ

/-- Output spacing dt = (tEnd - t0) / (numPoints - 1). -/
noncomputable def SolveCtx.dt (c : SolveCtx) : ℝ := (c.tEnd - c.t0) / ((c.numPoints : ℝ) - 1)

/-- Minimum step size hMin = (tEnd - t0) * 1e-12. -/
noncomputable def SolveCtx.hMin (c : SolveCtx) : ℝ := (c.tEnd - c.t0) * 1e-12

/-- Maximum step size hMax = (tEnd - t0) * 0.1. -/
noncomputable def SolveCtx.hMax (c : SolveCtx) : ℝ := (c.tEnd - c.t0) * 0.1

/-- The output time array: tOut[i] = t0 + i * dt, with the last entry
overwritten to exactly tEnd. -/
noncomputable def SolveCtx.tOut (c : SolveCtx) (i : ℕ) : ℝ :=
  if i = c.numPoints - 1 then c.tEnd else c.t0 + (i : ℝ) * c.dt

/-- The mutable state of the main solver loop: current time, current
(clamped) state, next output index to fill, current step size, FSAL first
slope, internal step counter, and the output buffer. -/
structure LoopState where
  tCur : ℝ
  xCur : ℝ
  outIdx : ℕ
  h : ℝ
  k1 : ℝ
  steps : ℕ
  yOut : ℕ → ℝ

/-! Dense-output (Hermite) interpolation coefficients, exactly the
polynomials b1..b7 of solver.ts lines 138-143. -/

noncomputable def b1c (θ : ℝ) : ℝ :=
  θ * (1 + θ * (-1337 / 480 + θ * (1039 / 360 - θ * 1163 / 1152)))
noncomputable def b3c (θ : ℝ) : ℝ :=
  θ * θ * (100 / 13 * (θ * (-242 / 45 + θ * 311 / 144)))
noncomputable def b4c (θ : ℝ) : ℝ :=
  θ * θ * (-125 / 48 * (θ * (-2 + θ * 151 / 144)))
noncomputable def b5c (θ : ℝ) : ℝ :=
  θ * θ * (θ * (18225 / 848 * (θ * (-3 / 5 + θ * 121 / 336))))
noncomputable def b6c (θ : ℝ) : ℝ :=
  θ * θ * (θ * (-11 / 3 * (θ * (-3 / 2 + θ * 121 / 120))))
noncomputable def b7c (θ : ℝ) : ℝ :=
  θ * θ * (θ * (1 / 2 * (θ * (-4 / 3 + θ))))

/-- The value xInterp = xCur + h*(b1*k1 + b3*k3 + b4*k4 + b5*k5 + b6*k6 + b7*k7)
of the dense-output interpolant at local fraction θ (solver.ts line 144). -/
noncomputable def interpValue (xCur h k1 k3 k4 k5 k6 k7 θ : ℝ) : ℝ :=
  xCur + h * (b1c θ * k1 + b3c θ * k3 + b4c θ * k4 + b5c θ * k5 + b6c θ * k6 + b7c θ * k7)

/-- The inner while loop of an accepted step (solver.ts lines 135-147): fill
output slots whose target time is at most tNew (+ tolerance), writing the
clamped interpolant value, and advance outIdx.  The loop is driven by fuel;
it is always called with fuel = numPoints - outIdx, which dominates the
number of iterations because the guard requires outIdx < numPoints. -/
noncomputable def fillLoop (c : SolveCtx) (tCur h xCur k1 k3 k4 k5 k6 k7 tNew : ℝ) :
    ℕ → ℕ → (ℕ → ℝ) → ℕ × (ℕ → ℝ)
  | 0, outIdx, yOut => (outIdx, yOut)
  | fuel + 1, outIdx, yOut =>
    if outIdx < c.numPoints ∧ c.tOut outIdx ≤ tNew + 1e-14 * |tNew| then
      fillLoop c tCur h xCur k1 k3 k4 k5 k6 k7 tNew fuel (outIdx + 1)
        (Function.update yOut outIdx
          (clamp01 (interpValue xCur h k1 k3 k4 k5 k6 k7 ((c.tOut outIdx - tCur) / h))))
    else (outIdx, yOut)

/-- The step size actually used in an iteration: the stored h truncated so as
not to overshoot tEnd and raised to at least hMin (solver.ts lines 109-110). -/
noncomputable def hAdj (c : SolveCtx) (st : LoopState) : ℝ :=
  let h0 := if st.tCur + st.h > c.tEnd then c.tEnd - st.tCur else st.h
  if h0 < c.hMin then c.hMin else h0

/-! The six Dormand-Prince stages, the order-5 solution, the FSAL stage, and
the error estimate of one iteration (solver.ts lines 114-127), as functions
of the loop state. -/

noncomputable def k2v (c : SolveCtx) (st : LoopState) : ℝ :=
  c.f (st.tCur + c2 * hAdj c st) (clamp01 (st.xCur + hAdj c st * a21 * st.k1))
noncomputable def k3v (c : SolveCtx) (st : LoopState) : ℝ :=
  c.f (st.tCur + c3 * hAdj c st)
    (clamp01 (st.xCur + hAdj c st * (a31 * st.k1 + a32 * k2v c st)))
noncomputable def k4v (c : SolveCtx) (st : LoopState) : ℝ :=
  c.f (st.tCur + c4 * hAdj c st)
    (clamp01 (st.xCur + hAdj c st * (a41 * st.k1 + a42 * k2v c st + a43 * k3v c st)))
noncomputable def k5v (c : SolveCtx) (st : LoopState) : ℝ :=
  c.f (st.tCur + c5 * hAdj c st)
    (clamp01 (st.xCur + hAdj c st *
      (a51 * st.k1 + a52 * k2v c st + a53 * k3v c st + a54 * k4v c st)))
noncomputable def k6v (c : SolveCtx) (st : LoopState) : ℝ :=
  c.f (st.tCur + hAdj c st)
    (clamp01 (st.xCur + hAdj c st *
      (a61 * st.k1 + a62 * k2v c st + a63 * k3v c st + a64 * k4v c st + a65 * k5v c st)))

/-- The order-5 solution xNew (solver.ts line 121). -/
noncomputable def xNewv (c : SolveCtx) (st : LoopState) : ℝ :=
  st.xCur + hAdj c st *
    (a71 * st.k1 + a73 * k3v c st + a74 * k4v c st + a75 * k5v c st + a76 * k6v c st)

/-- The seventh (FSAL) stage k7 (solver.ts line 122). -/
noncomputable def k7v (c : SolveCtx) (st : LoopState) : ℝ :=
  c.f (st.tCur + hAdj c st) (clamp01 (xNewv c st))

/-- The raw error estimate err (solver.ts line 125). -/
noncomputable def errv (c : SolveCtx) (st : LoopState) : ℝ :=
  hAdj c st * (e1 * st.k1 + e3 * k3v c st + e4 * k4v c st + e5 * k5v c st +
    e6 * k6v c st + e7 * k7v c st)

/-- The error scale atol + rtol * max(|xCur|, |xNew|) (solver.ts line 126). -/
noncomputable def scalev (c : SolveCtx) (st : LoopState) : ℝ :=
  c.atol + c.rtol * max |st.xCur| |xNewv c st|

/-- The dimensionless error ratio errNorm = |err| / scale (solver.ts line 127). -/
noncomputable def errNormv (c : SolveCtx) (st : LoopState) : ℝ :=
  |errv c st| / scalev c st

/-- Step-size controller (solver.ts lines 154-160): errPow is
errNorm^(-0.2) for positive errNorm and 5.0 otherwise; the new step is
h * min(5.0, max(0.2, 0.9 * errPow)), capped at hMax and raised to hMin. -/
noncomputable def stepSizeUpdate (c : SolveCtx) (h errNorm : ℝ) : ℝ :=
  let errPow := if errNorm > 0 then errNorm ^ (-0.2 : ℝ) else 5.0
  let hNew := h * min 5.0 (max 0.2 (0.9 * errPow))
  let hNew2 := if hNew > c.hMax then c.hMax else hNew
  if hNew2 < c.hMin then c.hMin else hNew2

/-- The result of the inner fill loop of one (accepted) iteration, started
at the current output index with fuel numPoints - outIdx. -/
noncomputable def fillRes (c : SolveCtx) (st : LoopState) : ℕ × (ℕ → ℝ) :=
  fillLoop c st.tCur (hAdj c st) st.xCur st.k1 (k3v c st) (k4v c st) (k5v c st)
    (k6v c st) (k7v c st) (st.tCur + hAdj c st) (c.numPoints - st.outIdx) st.outIdx st.yOut

/-- One iteration of the main loop body after the step-counter check
(solver.ts lines 108-160): adjust h, evaluate the stages, accept the step if
errNorm ≤ 1 (advancing t and x, clamping x, filling dense output, carrying
k7 as the next k1), and in both cases update the step size. -/
noncomputable def iterStep (c : SolveCtx) (st : LoopState) : LoopState :=
  if errNormv c st ≤ 1 then
    { tCur := st.tCur + hAdj c st
      xCur := clamp01 (xNewv c st)
      outIdx := (fillRes c st).1
      h := stepSizeUpdate c (hAdj c st) (errNormv c st)
      k1 := k7v c st
      steps := st.steps + 1
      yOut := (fillRes c st).2 }
  else
    { st with steps := st.steps + 1, h := stepSizeUpdate c (hAdj c st) (errNormv c st) }

/-- Fill output slots from outIdx up to numPoints - 1 with the value x
(the for loops at solver.ts lines 104 and 164-166). -/
noncomputable def fillTail (numPoints outIdx : ℕ) (x : ℝ) (yOut : ℕ → ℝ) : ℕ → ℝ :=
  fun i => if outIdx ≤ i ∧ i < numPoints then x else yOut i

/-- The main while loop (solver.ts lines 101-161), driven by fuel.  The
guard is tCur < tEnd ∧ outIdx < numPoints; when the incremented step counter
exceeds maxSteps the remaining output is filled with the last state and the
loop breaks (modelled by returning without recursing). -/
noncomputable def solveLoop (c : SolveCtx) : ℕ → LoopState → LoopState
  | 0, st => st
  | fuel + 1, st =>
    if st.tCur < c.tEnd ∧ st.outIdx < c.numPoints then
      if st.steps > c.maxSteps then
        { st with steps := st.steps + 1,
                  yOut := fillTail c.numPoints st.outIdx st.xCur st.yOut }
      else solveLoop c fuel (iterStep c st)
    else st

/-- The loop state just before the first iteration (solver.ts lines 86-99):
yOut[0] = clamp01(x0) in a zero-initialised buffer, outIdx = 1,
h = (tEnd - t0) * 1e-3, and k1 = f(t0, clamp01(x0)). -/
noncomputable def initState (c : SolveCtx) (x0 : ℝ) : LoopState :=
  { tCur := c.t0
    xCur := clamp01 x0
    outIdx := 1
    h := (c.tEnd - c.t0) * 1e-3
    k1 := c.f c.t0 (clamp01 x0)
    steps := 0
    yOut := Function.update (fun _ => 0) 0 (clamp01 x0) }

/-- The loop state after the main loop.  The fuel maxSteps + 2 dominates the
iteration count: each iteration increments steps, and an iteration entered
with steps > maxSteps breaks, so starting from steps = 0 at most
maxSteps + 2 guard evaluations occur (proved below as fuel-insensitivity). -/
noncomputable def solveFinal (c : SolveCtx) (x0 : ℝ) : LoopState :=
  solveLoop c (c.maxSteps + 2) (initState c x0)

/-- The final output buffer: the post-loop fill of solver.ts lines 163-166
applied to the buffer left by the main loop. -/
noncomputable def solveY (c : SolveCtx) (x0 : ℝ) : ℕ → ℝ :=
  fillTail c.numPoints (solveFinal c x0).outIdx (solveFinal c x0).xCur (solveFinal c x0).yOut

/-- Package a call's arguments into a SolveCtx. -/
noncomputable def mkCtx (f : ℝ → ℝ → ℝ) (tSpan : ℝ × ℝ) (opts : SolverOptions) : SolveCtx :=
  { f := f, t0 := tSpan.1, tEnd := tSpan.2, numPoints := opts.numPoints,
    rtol := opts.rtol, atol := opts.atol, maxSteps := opts.maxSteps }

/-- The function solve of solver.ts: the returned time and state arrays,
read off as lists of length numPoints. -/
noncomputable def solve (f : ℝ → ℝ → ℝ) (tSpan : ℝ × ℝ) (x0 : ℝ)
    (opts : SolverOptions) : SolverResult :=
  { t := (List.range (mkCtx f tSpan opts).numPoints).map (mkCtx f tSpan opts).tOut
    y := (List.range (mkCtx f tSpan opts).numPoints).map (solveY (mkCtx f tSpan opts) x0) }

end Solver

/-! ## Input signals (engine/signals) -/

namespace Signals

/-- Signal types available in the UI (engine/signals/types.ts). -/
inductive SignalType
  | sine
  | triangle
deriving DecidableEq

/-- Parameters shared by all signal generators (engine/signals/types.ts);
vn, frequency and period are optional fields. -/
structure SignalParams where
  vp : ℝ
  vn : Option ℝ
  frequency : Option ℝ
  period : Option ℝ

/-- The resolved negative amplitude: vn ?? vp. -/
noncomputable def SignalParams.vnVal (p : SignalParams) : ℝ := p.vn.getD p.vp

/-- The resolved frequency: frequency ?? (period ? 1 / period : 1).
JavaScript truthiness makes a zero period fall back to 1. -/
noncomputable def SignalParams.freqVal (p : SignalParams) : ℝ :=
  p.frequency.getD (match p.period with
    | some per => if per = 0 then 1 else 1 / per
    | none => 1)

/-- JavaScript truncation toward zero, as a real-valued function. -/
noncomputable def jsTrunc (x : ℝ) : ℝ := if 0 ≤ x then (⌊x⌋ : ℝ) else (⌈x⌉ : ℝ)

/-- The JavaScript remainder operator a % m (truncated division). -/
noncomputable def jsMod (a m : ℝ) : ℝ := a - m * jsTrunc (a / m)

/-- Function sawtooth of triangle.ts: normalise the phase to [0, 2π) by
((phase % 2π) + 2π) % 2π, then the symmetric triangle that rises from -1 to
+1 over [0, π] and falls back over [π, 2π]. -/
noncomputable def sawtooth (phase : ℝ) : ℝ :=
  let p := jsMod (jsMod phase (2 * Real.pi) + 2 * Real.pi) (2 * Real.pi)
  if p ≤ Real.pi then -1 + 2 * p / Real.pi else 1 - 2 * (p - Real.pi) / Real.pi

/-- createTriangleSignal of triangle.ts: a triangle wave scaled by vp / vn,
with the positive branch flipped in sign for t > tMax / 2. -/
noncomputable def createTriangleSignal (params : SignalParams) (tMax : ℝ) : ℝ → ℝ :=
  fun t =>
    let phase := 2 * Real.pi * params.freqVal * t + Real.pi / 2
    let saw := sawtooth phase
    let pos0 := params.vp * |saw|
    let neg := -params.vnVal * |saw|
    let pos := if t > tMax / 2 then -pos0 else pos0
    if pos > 0 then pos else neg

/-- createSineSignal of sine.ts: vp * sin(2πft) on the nonnegative
half-cycle and vn * sin(2πft) on the negative half-cycle. -/
noncomputable def createSineSignal (params : SignalParams) : ℝ → ℝ :=
  fun t =>
    let raw := Real.sin (2 * Real.pi * params.freqVal * t)
    if raw ≥ 0 then params.vp * raw else params.vnVal * raw

end Signals

/-! ## Window functions (engine/windows.ts) -/

namespace Windows

/-- The four window types of engine/windows.ts. -/
inductive WindowType
  | none
  | joglekar
  | biolek
  | anusudha
deriving DecidableEq

/-- No window: F(x) = 1. -/
noncomputable def noWindow (_x _i : ℝ) : ℝ := 1

/-- Joglekar window F(x) = 1 - (2x - 1)^(2p); Math.pow is modelled by
Real.rpow. -/
noncomputable def joglekar (x _i p : ℝ) : ℝ := 1 - (2 * x - 1) ^ (2 * p)

/-- Biolek window F(x, i) = 1 - (x - H(-i))^(2p) with H the Heaviside step. -/
noncomputable def biolek (x i p : ℝ) : ℝ :=
  1 - (x - (if i < 0 then 1 else 0)) ^ (2 * p)

/-- Anusudha window F(x) = j * (1 - 2 * (x³ - x + 1)^p). -/
noncomputable def anusudha (x _i p j : ℝ) : ℝ :=
  j * (1 - 2 * (x * x * x - x + 1) ^ p)

/-- createWindowFunction of windows.ts: dispatch on the window type,
closing over the shape parameters p and j. -/
noncomputable def createWindowFunction (type : WindowType) (p j : ℝ) : ℝ → ℝ → ℝ :=
  match type with
  | WindowType.joglekar => fun x i => joglekar x i p
  | WindowType.biolek => fun x i => biolek x i p
  | WindowType.anusudha => fun x i => anusudha x i p j
  | WindowType.none => noWindow

end Windows

/-! ## Device models (engine/models) -/

namespace Models

/-- A flat record mapping parameter names to numeric values
(engine/models/types.ts).  Record access p.name is modelled as function
application; the undefined-key NaN behaviour of JavaScript is out of scope
(spec treats missing parameters as caller error, not validated). -/
def ParamValues : Type := String → ℝ

/-- Interface every memristor model implements (engine/models/types.ts).
The parameterInfo UI metadata list is omitted: it is descriptive data never
read by the numeric path. -/
structure MemristorModel where
  id : String
  name : String
  current : ℝ → ℝ → ParamValues → ℝ
  dxdt : ℝ → ℝ → (ℝ → ℝ) → ParamValues → Option (ℝ → ℝ → ℝ) → ℝ

/-- Yakopcic windowing function wp(x) = (xp - x) / (1 - xp) + 1. -/
noncomputable def wp (x xp : ℝ) : ℝ := (xp - x) / (1 - xp) + 1

/-- Yakopcic windowing function wn(x) = x / (1 - xn). -/
noncomputable def wn (x xn : ℝ) : ℝ := x / (1 - xn)

/-- Yakopcic threshold function g(V): zero inside [-Vn, Vp], exponential
growth (continuous at the thresholds) outside. -/
noncomputable def g (v Ap An Vp Vn : ℝ) : ℝ :=
  if v > Vp then Ap * (Real.exp v - Real.exp Vp)
  else if v < -Vn then -An * (Real.exp (-v) - Real.exp Vn)
  else 0

/-- Yakopcic state-boundary window f(V, x), branching on the sign of η·V. -/
noncomputable def fWindow (v x alphap alphan xp xn eta : ℝ) : ℝ :=
  if eta * v ≥ 0 then
    if x ≥ xp then Real.exp (-alphap * (x - xp)) * wp x xp else 1
  else
    if x ≤ 1 - xn then Real.exp (alphan * (x + xn - 1)) * wn x xn else 1

/-- The Yakopcic generalised model (engine/models/yakopcic.ts). -/
noncomputable def yakopcicModel : MemristorModel :=
  { id := "yakopcic"
    name := "Yakopcic Generalised Model"
    current := fun v x p => (if v ≥ 0 then p "a1" else p "a2") * x * Real.sinh (p "b" * v)
    dxdt := fun t x vFunc p _ =>
      let v := vFunc t
      let eta := p "eta"
      eta * g v (p "Ap") (p "An") (p "Vp") (p "Vn") *
        fWindow v x (p "alphap") (p "alphan") (p "xp") (p "xn") eta }

/-- The HP Labs ion-drift model (engine/models/hplabs.ts). -/
noncomputable def hpLabsModel : MemristorModel :=
  { id := "hp_labs"
    name := "HP Labs Ion-Drift Model"
    current := fun v x p => v / (p "RON" * x + p "ROFF" * (1 - x))
    dxdt := fun t x vFunc p windowFunc =>
      let v := vFunc t
      let R := p "RON" * x + p "ROFF" * (1 - x)
      let i := v / R
      let F := match windowFunc with
        | some w => w x i
        | Option.none => 1
      p "muD" * p "RON" / (p "D" * p "D") * i * F }

/-- All available models keyed by id (engine/models/index.ts). -/
noncomputable def MODEL_REGISTRY : List (String × MemristorModel) :=
  [("yakopcic", yakopcicModel), ("hp_labs", hpLabsModel)]

end Models

/-! ## Simulation orchestrator (engine/simulate.ts) -/

namespace Sim

/-- The caller-supplied signal parameter record { vp, vn, frequency }. -/
structure SimSignalParams where
  vp : ℝ
  vn : ℝ
  frequency : ℝ

/-- SimulationConfig of engine/simulate.ts. -/
structure SimulationConfig where
  modelId : String
  modelParams : Models.ParamValues
  signalType : Signals.SignalType
  signalParams : SimSignalParams
  x0 : ℝ
  tMax : ℝ
  numPoints : Option ℕ
  windowType : Option Windows.WindowType
  windowP : Option ℝ
  windowJ : Option ℝ

/-- SimulationResult of engine/simulate.ts: four equal-length sequences. -/
structure SimulationResult where
  time : List ℝ
  voltage : List ℝ
  current : List ℝ
  stateVariable : List ℝ

/-- Function simulate of engine/simulate.ts.  The throw on an unknown
modelId is modelled by Except.error with the thrown message.  For a known
model the signal, the optional window (createWindowFunction receives the
defaults p = 1, j = 1 for absent shape parameters), and the right-hand side
are built, the solver is run over [0, tMax] with the orchestrator default of
10000 output points, and voltage / current are recomputed at every output
sample. -/
noncomputable def simulate (config : SimulationConfig) : Except String SimulationResult :=
  match Models.MODEL_REGISTRY.lookup config.modelId with
  | Option.none => Except.error ("Unknown model: " ++ config.modelId)
  | some model =>
    let sigParams : Signals.SignalParams :=
      { vp := config.signalParams.vp
        vn := some config.signalParams.vn
        frequency := some config.signalParams.frequency
        period := Option.none }
    let signal :=
      if config.signalType = Signals.SignalType.triangle then
        Signals.createTriangleSignal sigParams config.tMax
      else Signals.createSineSignal sigParams
    let windowFunc : Option (ℝ → ℝ → ℝ) :=
      config.windowType.map (fun w =>
        Windows.createWindowFunction w (config.windowP.getD 1) (config.windowJ.getD 1))
    let rhs : ℝ → ℝ → ℝ := fun t x => model.dxdt t x signal config.modelParams windowFunc
    let numPoints := config.numPoints.getD 10000
    let sol := Solver.solve rhs (0, config.tMax) config.x0
      { numPoints := numPoints, rtol := 1e-8, atol := 1e-10, maxSteps := 500000 }
    Except.ok
      { time := sol.t
        voltage := sol.t.map signal
        current := List.zipWith (fun t x => model.current (signal t) x config.modelParams)
          sol.t sol.y
        stateVariable := sol.y }

end Sim

/-! ## Concrete inputs used to instantiate the theorems -/

/-- A concrete solver context: right-hand side constant 1000000 over the
span [0, 1] with two output points and the default tolerances. -/
noncomputable def exCtx : Solver.SolveCtx :=
  { f := fun _ _ => 1000000, t0 := 0, tEnd := 1, numPoints := 2,
    rtol := 1e-8, atol := 1e-10, maxSteps := 500000 }

/-- A concrete loop state mid-run: t = 0, x = 1/2, step size 1/10, carried
first slope 0, one output slot already filled. -/
noncomputable def exSt : Solver.LoopState :=
  { tCur := 0, xCur := 1/2, outIdx := 1, h := 1/10, k1 := 0, steps := 0,
    yOut := fun _ => 0 }

/-- The same loop state with the step counter beyond maxSteps. -/
noncomputable def exStBreak : Solver.LoopState :=
  { tCur := 0, xCur := 1/2, outIdx := 1, h := 1/10, k1 := 0, steps := 500001,
    yOut := fun _ => 0 }

/-- A simulation configuration whose modelId is not registered. -/
noncomputable def badCfg : Sim.SimulationConfig :=
  { modelId := "nonexistent"
    modelParams := fun _ => 0
    signalType := Signals.SignalType.sine
    signalParams := { vp := 1, vn := 1, frequency := 1 }
    x0 := 0.1
    tMax := 2
    numPoints := Option.none
    windowType := Option.none
    windowP := Option.none
    windowJ := Option.none }

/-- The invariant carried by the solver loop: the output index stays at
least 1, slot 0 keeps the clamped initial value, every buffer entry lies in
[0, 1] (the buffer is zero-initialised and only clamped values are written),
and the working state lies in [0, 1]. -/
def StateInv (x0 : ℝ) (st : Solver.LoopState) : Prop :=
  1 ≤ st.outIdx ∧ st.yOut 0 = Solver.clamp01 x0 ∧
    (∀ i, 0 ≤ st.yOut i ∧ st.yOut i ≤ 1) ∧ 0 ≤ st.xCur ∧ st.xCur ≤ 1

/-! ## Theorems -/

open Filter Topology

/-! ### Generic helper lemmas -/

theorem clamp01_nonneg (x : ℝ) : 0 ≤ Solver.clamp01 x := by
  rw [Solver.clamp01]
  split_ifs with h1 h2 <;> linarith

theorem clamp01_le_one (x : ℝ) : Solver.clamp01 x ≤ 1 := by
  rw [Solver.clamp01]
  split_ifs with h1 h2 <;> linarith

/-- The sequential pair of ifs used by the step-size controller (cap at hi,
then raise to lo) computes the clamp to [lo, hi] when lo ≤ hi. -/
theorem ifChain_eq_clamp (lo hi x : ℝ) (hle : lo ≤ hi) :
    (if (if x > hi then hi else x) < lo then lo else if x > hi then hi else x) =
      max lo (min hi x) := by
  by_cases hxhi : x > hi
  · rw [if_pos hxhi, if_neg (not_lt.mpr hle), min_eq_left (le_of_lt hxhi),
      max_eq_right hle]
  · rw [if_neg hxhi, min_eq_right (not_lt.mp hxhi)]
    by_cases hxlo : x < lo
    · rw [if_pos hxlo, max_eq_left (le_of_lt hxlo)]
    · rw [if_neg hxlo, max_eq_right (not_lt.mp hxlo)]

/-! ### C2 : dense-output interpolant at the step endpoints -/

/-- C2: the claim states that the dense-output interpolant of solve matches
the solution at both step endpoints: θ = 0 gives x_old and θ = 1 gives the
order-5 solution, for all slopes and h.  The θ = 0 half holds, but at θ = 1
the coefficient polynomials of solver.ts do not reproduce the order-5
weights: with x_old = 0, h = 1, k3 = 1 and all other slopes 0 the
interpolant gives b3(1) = -11585/468 ≈ -24.75 while the order-5 solution is
a73 = 500/1113 ≈ 0.449. -/
theorem denseOutput_endpoint_mismatch :
    (∀ xo h k1 k3 k4 k5 k6 k7 : ℝ,
      Solver.interpValue xo h k1 k3 k4 k5 k6 k7 0 = xo) ∧
    Solver.interpValue 0 1 0 1 0 0 0 0 1 = -(11585 / 468) ∧
    (0 : ℝ) + 1 * (Solver.a71 * 0 + Solver.a73 * 1 + Solver.a74 * 0 +
      Solver.a75 * 0 + Solver.a76 * 0) = 500 / 1113 ∧
    (-(11585 / 468) : ℝ) ≠ 500 / 1113 := by
  refine ⟨?_, ?_, ?_, by norm_num⟩
  · intro xo h k1 k3 k4 k5 k6 k7
    simp [Solver.interpValue, Solver.b1c, Solver.b3c, Solver.b4c, Solver.b5c,
      Solver.b6c, Solver.b7c]
  · norm_num [Solver.interpValue, Solver.b1c, Solver.b3c, Solver.b4c,
      Solver.b5c, Solver.b6c, Solver.b7c]
  · norm_num [Solver.a71, Solver.a73, Solver.a74, Solver.a75, Solver.a76]

/-! ### C9 : termination of the main loop -/

theorem iterStep_steps (c : Solver.SolveCtx) (st : Solver.LoopState) :
    (Solver.iterStep c st).steps = st.steps + 1 := by
  rw [Solver.iterStep]
  split <;> rfl

/-- One unfolding step of the main loop. -/
theorem solveLoop_succ (c : Solver.SolveCtx) (m : ℕ) (st : Solver.LoopState) :
    Solver.solveLoop c (m + 1) st =
      if st.tCur < c.tEnd ∧ st.outIdx < c.numPoints then
        if st.steps > c.maxSteps then
          { st with steps := st.steps + 1,
                    yOut := Solver.fillTail c.numPoints st.outIdx st.xCur st.yOut }
        else Solver.solveLoop c m (Solver.iterStep c st)
      else st := rfl

theorem solveLoop_fuel_stable (c : Solver.SolveCtx) :
    ∀ (fuel : ℕ) (st : Solver.LoopState),
      c.maxSteps + 2 ≤ st.steps + fuel → 1 ≤ fuel →
      Solver.solveLoop c (fuel + 1) st = Solver.solveLoop c fuel st := by
  intro fuel
  induction fuel with
  | zero => intro st _ h1; omega
  | succ n ih =>
    intro st hle _
    have hstep : (Solver.iterStep c st).steps = st.steps + 1 := iterStep_steps c st
    rw [solveLoop_succ c (n + 1) st, solveLoop_succ c n st]
    split_ifs with hg hs
    · rfl
    · exact ih (Solver.iterStep c st) (by rw [hstep]; omega) (by omega)
    · rfl

/-- C9: solve terminates for every right-hand side, span and initial state:
the main loop is fuel-insensitive beyond maxSteps + 2 guard evaluations
(each iteration increments the step counter and an iteration entered with
counter above maxSteps breaks), so the bounded run solveFinal is the fixed
result of the loop. -/
theorem solve_loop_terminates (c : Solver.SolveCtx) (x0 : ℝ) (extra : ℕ) :
    Solver.solveLoop c (c.maxSteps + 2 + extra) (Solver.initState c x0) =
      Solver.solveFinal c x0 := by
  induction extra with
  | zero => rfl
  | succ n ih =>
    rw [← ih]
    have h0 : (Solver.initState c x0).steps = 0 := rfl
    exact solveLoop_fuel_stable c (c.maxSteps + 2 + n) (Solver.initState c x0)
      (by omega) (by omega)

/-! ### C4 : max-steps exceeded fills the tail and returns full arrays -/

/-- C4: when the main loop is entered with the step counter beyond maxSteps
while the output buffer is not yet full, the loop immediately fills every
remaining slot with the last computed state and stops, leaving all other
components unchanged; and solve always returns arrays of exactly numPoints
entries (there is no error path). -/
theorem maxSteps_fills_tail_and_returns :
    (∀ (c : Solver.SolveCtx) (st : Solver.LoopState) (fuel : ℕ),
      st.tCur < c.tEnd → st.outIdx < c.numPoints → c.maxSteps < st.steps →
      Solver.solveLoop c (fuel + 1) st =
        { st with steps := st.steps + 1,
                  yOut := Solver.fillTail c.numPoints st.outIdx st.xCur st.yOut }) ∧
    (∀ (f : ℝ → ℝ → ℝ) (tSpan : ℝ × ℝ) (x0 : ℝ) (opts : Solver.SolverOptions),
      (Solver.solve f tSpan x0 opts).t.length = opts.numPoints ∧
      (Solver.solve f tSpan x0 opts).y.length = opts.numPoints) := by
  constructor
  · intro c st fuel h1 h2 h3
    rw [solveLoop_succ, if_pos ⟨h1, h2⟩, if_pos h3]
  · intro f tSpan x0 opts
    constructor <;> simp [Solver.solve, Solver.mkCtx]

/-- Witness for C4 at a concrete context, state and fuel. -/
theorem maxSteps_fills_tail_witness :
    exStBreak.tCur < exCtx.tEnd ∧ exStBreak.outIdx < exCtx.numPoints ∧
    exCtx.maxSteps < exStBreak.steps ∧
    Solver.solveLoop exCtx 1 exStBreak =
      { exStBreak with
          steps := exStBreak.steps + 1,
          yOut := Solver.fillTail exCtx.numPoints exStBreak.outIdx
            exStBreak.xCur exStBreak.yOut } :=
  ⟨by norm_num [exStBreak, exCtx], by norm_num [exStBreak, exCtx],
   by norm_num [exStBreak, exCtx],
   maxSteps_fills_tail_and_returns.1 exCtx exStBreak 0
     (by norm_num [exStBreak, exCtx]) (by norm_num [exStBreak, exCtx])
     (by norm_num [exStBreak, exCtx])⟩

/-! ### C10 : frame of a rejected step -/

/-- On the concrete context exCtx (constant right-hand side 1000000) and
state exSt (carried slope 0), the error ratio is far above 1, so the step
is rejected. -/
theorem exSt_rejected : 1 < Solver.errNormv exCtx exSt := by
  norm_num [Solver.errNormv, Solver.errv, Solver.scalev, Solver.xNewv,
    Solver.k2v, Solver.k3v, Solver.k4v, Solver.k5v, Solver.k6v, Solver.k7v,
    Solver.hAdj, Solver.SolveCtx.hMin, Solver.e1, Solver.e3, Solver.e4,
    Solver.e5, Solver.e6, Solver.e7, Solver.a71, Solver.a73, Solver.a74,
    Solver.a75, Solver.a76, exCtx, exSt,
    abs_of_nonneg (by norm_num : (0 : ℝ) ≤ 8875 / 72),
    abs_of_nonneg (by norm_num : (0 : ℝ) ≤ 1 / 2),
    abs_of_nonneg (by norm_num : (0 : ℝ) ≤ 1090631 / 12),
    max_eq_right (by norm_num : (1 / 2 : ℝ) ≤ 1090631 / 12)]

/-- C10 (claim as stated is refuted): on a rejected step the step size is
not the only changing component of the loop state — the internal step
counter also increments.  Concretely, the iteration on exCtx / exSt is
rejected (error ratio above 1) yet changes the steps field. -/
theorem rejected_step_changes_counter :
    1 < Solver.errNormv exCtx exSt ∧
    (Solver.iterStep exCtx exSt).steps ≠ exSt.steps := by
  refine ⟨exSt_rejected, ?_⟩
  rw [iterStep_steps]
  simp [exSt]

/-- C10 (amended): on a rejected step (error ratio above 1) the iteration
leaves the current time, current state, FSAL slope k1, output index and the
whole output buffer unchanged; the only components that change are the step
size and the internal step counter. -/
theorem rejected_step_frame (c : Solver.SolveCtx) (st : Solver.LoopState)
    (hrej : 1 < Solver.errNormv c st) :
    Solver.iterStep c st =
      { st with steps := st.steps + 1,
                h := Solver.stepSizeUpdate c (Solver.hAdj c st) (Solver.errNormv c st) } ∧
    (Solver.iterStep c st).tCur = st.tCur ∧
    (Solver.iterStep c st).xCur = st.xCur ∧
    (Solver.iterStep c st).k1 = st.k1 ∧
    (Solver.iterStep c st).outIdx = st.outIdx ∧
    (Solver.iterStep c st).yOut = st.yOut := by
  have e : Solver.iterStep c st =
      { st with steps := st.steps + 1,
                h := Solver.stepSizeUpdate c (Solver.hAdj c st) (Solver.errNormv c st) } := by
    rw [Solver.iterStep, if_neg (not_le.mpr hrej)]
  exact ⟨e, by rw [e], by rw [e], by rw [e], by rw [e], by rw [e]⟩

/-- Witness for the amended C10 at the concrete rejected step. -/
theorem rejected_step_frame_witness :
    1 < Solver.errNormv exCtx exSt ∧
    (Solver.iterStep exCtx exSt).tCur = exSt.tCur ∧
    (Solver.iterStep exCtx exSt).xCur = exSt.xCur ∧
    (Solver.iterStep exCtx exSt).k1 = exSt.k1 ∧
    (Solver.iterStep exCtx exSt).outIdx = exSt.outIdx ∧
    (Solver.iterStep exCtx exSt).yOut = exSt.yOut :=
  ⟨exSt_rejected, (rejected_step_frame exCtx exSt exSt_rejected).2⟩

/-! ### C5 : step-size controller -/

/-- C5 (claim as stated is refuted at errorRatio = 0): the claimed formula
h * clamp(0.9 * errorRatio^(-1/5), 0.2, 5.0), clamped to [hMin, hMax],
disagrees with the code at errorRatio = 0: on exCtx with h = 1/100 the code
substitutes errPow = 5.0 and yields (1/100) * 0.9 * 5.0 = 9/200, while the
formula yields (1/100) * 0.2 = 1/500. -/
theorem stepSize_zero_error_counterexample :
    Solver.stepSizeUpdate exCtx (1 / 100) 0 = 9 / 200 ∧
    max exCtx.hMin (min exCtx.hMax
      ((1 / 100) * min 5 (max 0.2 (0.9 * (0 : ℝ) ^ (-(1 : ℝ) / 5))))) = 1 / 500 ∧
    (9 / 200 : ℝ) ≠ 1 / 500 := by
  have hz : (0 : ℝ) ^ (-(1 : ℝ) / 5) = 0 := Real.zero_rpow (by norm_num)
  refine ⟨?_, ?_, by norm_num⟩
  · rw [Solver.stepSizeUpdate]
    norm_num [Solver.SolveCtx.hMin, Solver.SolveCtx.hMax, exCtx, max_def, min_def]
  · rw [hz]
    norm_num [Solver.SolveCtx.hMin, Solver.SolveCtx.hMax, exCtx, max_def, min_def]

/-- C5 (amended): for every positive error ratio the next step size is
h * clamp(0.9 * errorRatio^(-1/5), 0.2, 5.0) clamped to [hMin, hMax] with
hMin = (tEnd - t0) * 1e-12 and hMax = (tEnd - t0) * 0.1; at errorRatio = 0
the code substitutes 5.0 for the infinite power, giving h * (0.9 * 5.0) =
h * 9/2 before the same clamp; and every iteration, accepted or rejected,
stores exactly this controller value as the next step size. -/
theorem stepSize_controller_formula (c : Solver.SolveCtx) (h e : ℝ)
    (hm : c.hMin ≤ c.hMax) :
    (0 < e → Solver.stepSizeUpdate c h e =
      max c.hMin (min c.hMax (h * min 5 (max 0.2 (0.9 * e ^ (-(1 : ℝ) / 5)))))) ∧
    Solver.stepSizeUpdate c h 0 = max c.hMin (min c.hMax (h * (9 / 2))) ∧
    c.hMin = (c.tEnd - c.t0) * 1e-12 ∧ c.hMax = (c.tEnd - c.t0) * 0.1 ∧
    (∀ st : Solver.LoopState, (Solver.iterStep c st).h =
      Solver.stepSizeUpdate c (Solver.hAdj c st) (Solver.errNormv c st)) := by
  have hexp : (-0.2 : ℝ) = -(1 : ℝ) / 5 := by norm_num
  have h5 : (5.0 : ℝ) = 5 := by norm_num
  refine ⟨?_, ?_, rfl, rfl, ?_⟩
  · intro he
    rw [Solver.stepSizeUpdate]
    simp only [if_pos he, hexp, h5]
    exact ifChain_eq_clamp c.hMin c.hMax _ hm
  · have e0 : Solver.stepSizeUpdate c h 0 =
        (if (if h * (9 / 2) > c.hMax then c.hMax else h * (9 / 2)) < c.hMin then c.hMin
         else if h * (9 / 2) > c.hMax then c.hMax else h * (9 / 2)) := by
      rw [Solver.stepSizeUpdate]
      norm_num [min_def, max_def]
    rw [e0]
    exact ifChain_eq_clamp c.hMin c.hMax _ hm
  · intro st
    rw [Solver.iterStep]
    split <;> rfl

/-- Witness for the amended C5 at error ratio 1 on exCtx. -/
theorem stepSize_controller_formula_witness :
    exCtx.hMin ≤ exCtx.hMax ∧ (0 : ℝ) < 1 ∧
    Solver.stepSizeUpdate exCtx 1 1 =
      max exCtx.hMin (min exCtx.hMax (1 * min 5 (max 0.2 (0.9 * (1 : ℝ) ^ (-(1 : ℝ) / 5))))) :=
  ⟨by norm_num [Solver.SolveCtx.hMin, Solver.SolveCtx.hMax, exCtx],
   by norm_num,
   (stepSize_controller_formula exCtx 1 1
      (by norm_num [Solver.SolveCtx.hMin, Solver.SolveCtx.hMax, exCtx])).1 (by norm_num)⟩

/-! ### C3 : output time grid -/

/-- C3: for numPoints ≥ 2 over a forward span, the returned time array has
exactly numPoints entries equal to t0 + i * (tEnd - t0)/(numPoints - 1)
(so it is evenly spaced, and the overwritten last entry coincides exactly
with this grid in real arithmetic), it is strictly increasing, its last
element is exactly tEnd, and the state array has the same length. -/
theorem solve_time_grid (f : ℝ → ℝ → ℝ) (t0 tEnd x0 : ℝ)
    (opts : Solver.SolverOptions) (hn : 2 ≤ opts.numPoints) (ht : t0 < tEnd) :
    (Solver.solve f (t0, tEnd) x0 opts).t.length = opts.numPoints ∧
    (Solver.solve f (t0, tEnd) x0 opts).y.length = opts.numPoints ∧
    (Solver.solve f (t0, tEnd) x0 opts).t = (List.range opts.numPoints).map
      (fun i : ℕ => t0 + (i : ℝ) * ((tEnd - t0) / ((opts.numPoints : ℝ) - 1))) ∧
    (Solver.solve f (t0, tEnd) x0 opts).t.Pairwise (· < ·) ∧
    (Solver.solve f (t0, tEnd) x0 opts).t.getLast? = some tEnd := by
  set c := Solver.mkCtx f (t0, tEnd) opts with hc
  have hcN : c.numPoints = opts.numPoints := rfl
  have hNcast : (1 : ℝ) ≤ (opts.numPoints : ℝ) - 1 := by
    have : (2 : ℝ) ≤ (opts.numPoints : ℝ) := by exact_mod_cast hn
    linarith
  have hNne : ((opts.numPoints : ℝ) - 1) ≠ 0 := by linarith
  have hdt : c.dt = (tEnd - t0) / ((opts.numPoints : ℝ) - 1) := rfl
  have hdtpos : 0 < c.dt := by
    rw [hdt]
    exact div_pos (by linarith) (by linarith)
  have htOut : ∀ i, c.tOut i =
      t0 + (i : ℝ) * ((tEnd - t0) / ((opts.numPoints : ℝ) - 1)) := by
    intro i
    rw [Solver.SolveCtx.tOut]
    split_ifs with hi
    · rw [hi, hcN]
      have hcast : ((opts.numPoints - 1 : ℕ) : ℝ) = (opts.numPoints : ℝ) - 1 := by
        rw [Nat.cast_sub (by omega : 1 ≤ opts.numPoints)]
        norm_num
      show tEnd = t0 + _
      rw [hcast]
      field_simp
    · rfl
  have htlist : (Solver.solve f (t0, tEnd) x0 opts).t =
      (List.range opts.numPoints).map
        (fun i : ℕ => t0 + (i : ℝ) * ((tEnd - t0) / ((opts.numPoints : ℝ) - 1))) := by
    show (List.range c.numPoints).map c.tOut = _
    rw [hcN]
    exact List.map_congr_left (fun i _ => htOut i)
  refine ⟨by simp [Solver.solve, Solver.mkCtx], by simp [Solver.solve, Solver.mkCtx],
    htlist, ?_, ?_⟩
  · rw [htlist]
    refine List.Pairwise.map _ ?_ (List.pairwise_lt_range opts.numPoints)
    intro a b hab
    have hcastab : (a : ℝ) < (b : ℝ) := by exact_mod_cast hab
    have hdt2 : 0 < (tEnd - t0) / ((opts.numPoints : ℝ) - 1) :=
      div_pos (by linarith) (by linarith)
    have := mul_lt_mul_of_pos_right hcastab hdt2
    linarith
  · show ((List.range c.numPoints).map c.tOut).getLast? = some tEnd
    have hlen : ((List.range c.numPoints).map c.tOut).length = c.numPoints := by simp
    rw [List.getLast?_eq_getElem?, hlen]
    have hlt : c.numPoints - 1 < c.numPoints := by
      rw [hcN]; omega
    rw [List.getElem?_map, List.getElem?_range hlt]
    show some (c.tOut (c.numPoints - 1)) = some tEnd
    rw [Solver.SolveCtx.tOut, if_pos rfl]
    rfl

/-- Witness for C3 on a concrete call with two output points over [0, 1]. -/
theorem solve_time_grid_witness :
    2 ≤ (2 : ℕ) ∧ (0 : ℝ) < 1 ∧
    (Solver.solve (fun _ _ => 0) (0, 1) 0
      { numPoints := 2, rtol := 1e-8, atol := 1e-10, maxSteps := 500000 }).t.getLast? =
      some 1 :=
  ⟨le_refl 2, by norm_num,
   (solve_time_grid (fun _ _ => 0) 0 1 0
      { numPoints := 2, rtol := 1e-8, atol := 1e-10, maxSteps := 500000 }
      (le_refl 2) (by norm_num)).2.2.2.2⟩

/-! ### C6 : unknown modelId -/

/-- C6: the registered model ids are exactly "yakopcic" and "hp_labs"; for
any configuration whose modelId is neither, simulate fails immediately with
the descriptive error "Unknown model: <id>" and produces no result; for a
registered modelId the lookup succeeds and simulate returns a full result
(there is no other error path). -/
theorem simulate_unknown_model_error :
    (∀ id : String, (Models.MODEL_REGISTRY.lookup id).isSome ↔
      id = "yakopcic" ∨ id = "hp_labs") ∧
    (∀ cfg : Sim.SimulationConfig, cfg.modelId ≠ "yakopcic" → cfg.modelId ≠ "hp_labs" →
      Sim.simulate cfg = Except.error ("Unknown model: " ++ cfg.modelId)) ∧
    (∀ cfg : Sim.SimulationConfig, cfg.modelId = "yakopcic" ∨ cfg.modelId = "hp_labs" →
      ∃ r, Sim.simulate cfg = Except.ok r) := by
  refine ⟨?_, ?_, ?_⟩
  · intro id
    constructor
    · intro hs
      by_contra hne
      push_neg at hne
      have e1 : (id == "yakopcic") = false := beq_eq_false_iff_ne.mpr hne.1
      have e2 : (id == "hp_labs") = false := beq_eq_false_iff_ne.mpr hne.2
      simp [Models.MODEL_REGISTRY, List.lookup, e1, e2] at hs
    · intro h
      rcases h with h | h <;> subst h <;>
        simp [Models.MODEL_REGISTRY, List.lookup]
  · intro cfg h1 h2
    have e1 : (cfg.modelId == "yakopcic") = false := beq_eq_false_iff_ne.mpr h1
    have e2 : (cfg.modelId == "hp_labs") = false := beq_eq_false_iff_ne.mpr h2
    have hl : Models.MODEL_REGISTRY.lookup cfg.modelId = Option.none := by
      simp [Models.MODEL_REGISTRY, List.lookup, e1, e2]
    rw [Sim.simulate, hl]
  · intro cfg h
    rcases h with h | h
    · have hl : Models.MODEL_REGISTRY.lookup cfg.modelId = some Models.yakopcicModel := by
        rw [h]
        simp [Models.MODEL_REGISTRY, List.lookup]
      rw [Sim.simulate, hl]
      exact ⟨_, rfl⟩
    · have hl : Models.MODEL_REGISTRY.lookup cfg.modelId = some Models.hpLabsModel := by
        rw [h]
        simp [Models.MODEL_REGISTRY, List.lookup]
      rw [Sim.simulate, hl]
      exact ⟨_, rfl⟩

/-- Witness for C6 at the unregistered id "nonexistent". -/
theorem simulate_unknown_model_error_witness :
    badCfg.modelId ≠ "yakopcic" ∧ badCfg.modelId ≠ "hp_labs" ∧
    Sim.simulate badCfg = Except.error ("Unknown model: " ++ badCfg.modelId) :=
  ⟨by decide, by decide,
   simulate_unknown_model_error.2.1 badCfg (by decide) (by decide)⟩

/-! ### C1 : the clamp invariant of the returned state values -/

/-- One unfolding step of the dense-output fill loop. -/
theorem fillLoop_succ (c : Solver.SolveCtx) (tC h xC k1 k3 k4 k5 k6 k7 tN : ℝ)
    (n oi : ℕ) (y : ℕ → ℝ) :
    Solver.fillLoop c tC h xC k1 k3 k4 k5 k6 k7 tN (n + 1) oi y =
      if oi < c.numPoints ∧ c.tOut oi ≤ tN + 1e-14 * |tN| then
        Solver.fillLoop c tC h xC k1 k3 k4 k5 k6 k7 tN n (oi + 1)
          (Function.update y oi
            (Solver.clamp01 (Solver.interpValue xC h k1 k3 k4 k5 k6 k7
              ((c.tOut oi - tC) / h))))
      else (oi, y) := rfl

/-- The fill loop only moves the output index forward, never touches slots
below its starting index, and writes only clamped values. -/
theorem fillLoop_spec (c : Solver.SolveCtx) (tC h xC k1 k3 k4 k5 k6 k7 tN : ℝ) :
    ∀ (fuel oi : ℕ) (y : ℕ → ℝ),
      oi ≤ (Solver.fillLoop c tC h xC k1 k3 k4 k5 k6 k7 tN fuel oi y).1 ∧
      (∀ i, i < oi →
        (Solver.fillLoop c tC h xC k1 k3 k4 k5 k6 k7 tN fuel oi y).2 i = y i) ∧
      (∀ i, (Solver.fillLoop c tC h xC k1 k3 k4 k5 k6 k7 tN fuel oi y).2 i = y i ∨
        ∃ v, (Solver.fillLoop c tC h xC k1 k3 k4 k5 k6 k7 tN fuel oi y).2 i =
          Solver.clamp01 v) := by
  intro fuel
  induction fuel with
  | zero => exact fun oi y => ⟨le_refl _, fun i _ => rfl, fun i => Or.inl rfl⟩
  | succ n ih =>
    intro oi y
    rw [fillLoop_succ]
    split_ifs with hcnd
    · obtain ⟨ih1, ih2, ih3⟩ := ih (oi + 1)
        (Function.update y oi
          (Solver.clamp01 (Solver.interpValue xC h k1 k3 k4 k5 k6 k7
            ((c.tOut oi - tC) / h))))
      refine ⟨le_trans (Nat.le_succ oi) ih1, ?_, ?_⟩
      · intro i hio
        rw [ih2 i (Nat.lt_succ_of_lt hio)]
        exact Function.update_noteq (Nat.ne_of_lt hio) _ y
      · intro i
        rcases ih3 i with hcase | hcase
        · rw [hcase]
          by_cases hi : i = oi
          · subst hi
            right
            exact ⟨_, Function.update_same _ _ _⟩
          · left
            exact Function.update_noteq hi _ y
        · right
          exact hcase
    · exact ⟨le_refl _, fun i _ => rfl, fun i => Or.inl rfl⟩

/-- The inner fill of an accepted step, specialised to the loop state. -/
theorem fillRes_spec (c : Solver.SolveCtx) (st : Solver.LoopState) :
    st.outIdx ≤ (Solver.fillRes c st).1 ∧
    (∀ i, i < st.outIdx → (Solver.fillRes c st).2 i = st.yOut i) ∧
    (∀ i, (Solver.fillRes c st).2 i = st.yOut i ∨
      ∃ v, (Solver.fillRes c st).2 i = Solver.clamp01 v) := by
  rw [Solver.fillRes]
  exact fillLoop_spec c st.tCur (Solver.hAdj c st) st.xCur st.k1 (Solver.k3v c st)
    (Solver.k4v c st) (Solver.k5v c st) (Solver.k6v c st) (Solver.k7v c st)
    (st.tCur + Solver.hAdj c st) (c.numPoints - st.outIdx) st.outIdx st.yOut

/-- One iteration preserves the loop invariant. -/
theorem iterStep_inv (c : Solver.SolveCtx) (x0 : ℝ) (st : Solver.LoopState)
    (hinv : StateInv x0 st) : StateInv x0 (Solver.iterStep c st) := by
  obtain ⟨h1, h2, h3, h4, h5⟩ := hinv
  rw [Solver.iterStep]
  split_ifs with hacc
  · obtain ⟨f1, f2, f3⟩ := fillRes_spec c st
    refine ⟨le_trans h1 f1, ?_, ?_, clamp01_nonneg _, clamp01_le_one _⟩
    · show (Solver.fillRes c st).2 0 = _
      rw [f2 0 (by omega)]
      exact h2
    · intro i
      show 0 ≤ (Solver.fillRes c st).2 i ∧ (Solver.fillRes c st).2 i ≤ 1
      rcases f3 i with hcase | ⟨v, hv⟩
      · rw [hcase]
        exact h3 i
      · rw [hv]
        exact ⟨clamp01_nonneg v, clamp01_le_one v⟩
  · exact ⟨h1, h2, h3, h4, h5⟩

/-- The main loop preserves the invariant (including through the break
branch that fills the tail with the clamped current state). -/
theorem solveLoop_inv (c : Solver.SolveCtx) (x0 : ℝ) :
    ∀ (fuel : ℕ) (st : Solver.LoopState),
      StateInv x0 st → StateInv x0 (Solver.solveLoop c fuel st) := by
  intro fuel
  induction fuel with
  | zero => exact fun st h => h
  | succ n ih =>
    intro st h
    rw [solveLoop_succ]
    split_ifs with hg hs
    · obtain ⟨h1, h2, h3, h4, h5⟩ := h
      refine ⟨h1, ?_, ?_, h4, h5⟩
      · show Solver.fillTail c.numPoints st.outIdx st.xCur st.yOut 0 = _
        rw [Solver.fillTail, if_neg (fun hcon => by omega)]
        exact h2
      · intro i
        show 0 ≤ Solver.fillTail c.numPoints st.outIdx st.xCur st.yOut i ∧
          Solver.fillTail c.numPoints st.outIdx st.xCur st.yOut i ≤ 1
        simp only [Solver.fillTail]
        split_ifs
        · exact ⟨h4, h5⟩
        · exact h3 i
    · exact ih _ (iterStep_inv c x0 st h)
    · exact h

/-- The initial loop state satisfies the invariant. -/
theorem initState_inv (c : Solver.SolveCtx) (x0 : ℝ) :
    StateInv x0 (Solver.initState c x0) := by
  refine ⟨le_refl 1, ?_, ?_, clamp01_nonneg x0, clamp01_le_one x0⟩
  · show Function.update (fun _ => (0 : ℝ)) 0 (Solver.clamp01 x0) 0 = Solver.clamp01 x0
    simp
  · intro i
    show 0 ≤ Function.update (fun _ => (0 : ℝ)) 0 (Solver.clamp01 x0) i ∧
      Function.update (fun _ => (0 : ℝ)) 0 (Solver.clamp01 x0) i ≤ 1
    by_cases hi : i = 0
    · subst hi
      simp only [Function.update_same]
      exact ⟨clamp01_nonneg x0, clamp01_le_one x0⟩
    · rw [Function.update_noteq hi]
      norm_num

/-- C1: every state value returned by solve lies in [0, 1] (for any
right-hand side, any forward span and any initial state in [0, 1]),
and the first returned sample is exactly clamp01 of x0. -/
theorem solve_output_clamped (f : ℝ → ℝ → ℝ) (t0 tEnd x0 : ℝ)
    (opts : Solver.SolverOptions) (ht : t0 < tEnd) (hx0 : 0 ≤ x0) (hx1 : x0 ≤ 1) :
    (∀ v ∈ (Solver.solve f (t0, tEnd) x0 opts).y, 0 ≤ v ∧ v ≤ 1) ∧
    (Solver.solve f (t0, tEnd) x0 opts).y.head? =
      if opts.numPoints = 0 then Option.none else some (Solver.clamp01 x0) := by
  obtain ⟨h1, h2, h3, h4, h5⟩ :
      StateInv x0 (Solver.solveFinal (Solver.mkCtx f (t0, tEnd) opts) x0) :=
    solveLoop_inv _ x0 _ _ (initState_inv _ x0)
  have hyb : ∀ i, 0 ≤ Solver.solveY (Solver.mkCtx f (t0, tEnd) opts) x0 i ∧
      Solver.solveY (Solver.mkCtx f (t0, tEnd) opts) x0 i ≤ 1 := by
    intro i
    rw [Solver.solveY, Solver.fillTail]
    split_ifs
    · exact ⟨h4, h5⟩
    · exact h3 i
  have hy0 : Solver.solveY (Solver.mkCtx f (t0, tEnd) opts) x0 0 =
      Solver.clamp01 x0 := by
    rw [Solver.solveY, Solver.fillTail, if_neg (fun hcon => by omega)]
    exact h2
  constructor
  · intro v hv
    simp only [Solver.solve] at hv
    obtain ⟨i, _, rfl⟩ := List.mem_map.mp hv
    exact hyb i
  · by_cases hN : opts.numPoints = 0
    · rw [if_pos hN]
      show ((List.range (Solver.mkCtx f (t0, tEnd) opts).numPoints).map _).head? = _
      have hzero : (Solver.mkCtx f (t0, tEnd) opts).numPoints = 0 := hN
      rw [hzero]
      rfl
    · rw [if_neg hN]
      obtain ⟨m, hm⟩ := Nat.exists_eq_succ_of_ne_zero hN
      show ((List.range (Solver.mkCtx f (t0, tEnd) opts).numPoints).map
        (Solver.solveY (Solver.mkCtx f (t0, tEnd) opts) x0)).head? = _
      have hcN : (Solver.mkCtx f (t0, tEnd) opts).numPoints = m + 1 := hm
      rw [hcN, List.range_succ_eq_map, List.map_cons, List.head?_cons, hy0]

/-- Witness for C1 on a concrete call. -/
theorem solve_output_clamped_witness :
    (0 : ℝ) < 1 ∧ (0 : ℝ) ≤ 1 / 2 ∧ (1 / 2 : ℝ) ≤ 1 ∧
    (∀ v ∈ (Solver.solve (fun _ _ => 0) (0, 1) (1 / 2)
      { numPoints := 2, rtol := 1e-8, atol := 1e-10, maxSteps := 0 }).y,
        0 ≤ v ∧ v ≤ 1) :=
  ⟨by norm_num, by norm_num, by norm_num,
   (solve_output_clamped (fun _ _ => 0) 0 1 (1 / 2)
      { numPoints := 2, rtol := 1e-8, atol := 1e-10, maxSteps := 0 }
      (by norm_num) (by norm_num) (by norm_num)).1⟩

/-! ### C8 : window functions -/

/-- C8 (claim as stated is refuted): the Joglekar identities do not hold for
every real p ≥ 1.  Math.pow on a negative base, modelled by Real.rpow, does
not give (-1)^(2p) = 1 for non-integer p: with p = 5/4 we get
joglekar(0) = 1 - (-1)^(5/2) = 1 ≠ 0.  (In IEEE JavaScript the same input
yields NaN, also violating F(0) = 0 and finiteness.) -/
theorem joglekar_noninteger_p_counterexample :
    (1 : ℝ) ≤ 5 / 4 ∧ Windows.joglekar 0 0 (5 / 4) ≠ 0 := by
  refine ⟨by norm_num, ?_⟩
  have h1 : Windows.joglekar 0 0 (5 / 4) = 1 - (-1 : ℝ) ^ ((5 : ℝ) / 2) := by
    rw [Windows.joglekar]
    norm_num
  have h2 : (-1 : ℝ) ^ ((5 : ℝ) / 2) = 0 := by
    rw [Real.rpow_def_of_neg (by norm_num : (-1 : ℝ) < 0)]
    have hl : Real.log (-1 : ℝ) = 0 := by
      rw [show (-1 : ℝ) = -(1 : ℝ) by norm_num, Real.log_neg_eq_log, Real.log_one]
    have hc : Real.cos ((5 : ℝ) / 2 * Real.pi) = 0 := by
      rw [show (5 : ℝ) / 2 * Real.pi = Real.pi / 2 + 2 * Real.pi by ring,
        Real.cos_add_two_pi, Real.cos_pi_div_two]
    rw [hl, hc]
    ring
  rw [h1, h2]
  norm_num

/-- C8 (amended): for every integer p ≥ 1 the Joglekar window satisfies
F(0) = 0, F(1) = 0 and F(0.5) = 1, and for every x in [0, 1] each of the
four window types with integer p ≥ 1 and any real j returns a well-defined
real value bounded in absolute value by max(1, |j|). -/
theorem window_functions_bounded (n : ℕ) (hn : 1 ≤ n) (i j x : ℝ)
    (hx0 : 0 ≤ x) (hx1 : x ≤ 1) :
    Windows.joglekar 0 i (n : ℝ) = 0 ∧
    Windows.joglekar 1 i (n : ℝ) = 0 ∧
    Windows.joglekar (1 / 2) i (n : ℝ) = 1 ∧
    |Windows.noWindow x i| ≤ max 1 |j| ∧
    |Windows.joglekar x i (n : ℝ)| ≤ max 1 |j| ∧
    |Windows.biolek x i (n : ℝ)| ≤ max 1 |j| ∧
    |Windows.anusudha x i (n : ℝ) j| ≤ max 1 |j| := by
  have hkey : ∀ y : ℝ, y ^ (2 * (n : ℝ)) = y ^ (2 * n) := by
    intro y
    rw [show (2 * (n : ℝ)) = ((2 * n : ℕ) : ℝ) by push_cast; ring, Real.rpow_natCast]
  have habs1 : ∀ w : ℝ, 0 ≤ w → w ≤ 1 → |1 - w| ≤ max 1 |j| := by
    intro w hw0 hw1
    exact le_trans (abs_le.mpr ⟨by linarith, by linarith⟩) (le_max_left 1 |j|)
  have heven : ∀ y : ℝ, -1 ≤ y → y ≤ 1 → 0 ≤ y ^ (2 * n) ∧ y ^ (2 * n) ≤ 1 := by
    intro y hy0 hy1
    rw [pow_mul]
    constructor
    · exact pow_nonneg (sq_nonneg y) n
    · exact pow_le_one₀ (sq_nonneg y) (by nlinarith)
  refine ⟨?_, ?_, ?_, ?_, ?_, ?_, ?_⟩
  · rw [Windows.joglekar, hkey]
    rw [show (2 * (0 : ℝ) - 1) = -1 by norm_num, Even.neg_one_pow (even_two_mul n)]
    norm_num
  · rw [Windows.joglekar, hkey]
    norm_num
  · rw [Windows.joglekar, hkey]
    rw [show (2 * (1 / 2 : ℝ) - 1) = 0 by norm_num, zero_pow (by omega : 2 * n ≠ 0)]
    norm_num
  · rw [Windows.noWindow, abs_one]
    exact le_max_left 1 |j|
  · rw [Windows.joglekar, hkey]
    obtain ⟨hb0, hb1⟩ := heven (2 * x - 1) (by linarith) (by linarith)
    exact habs1 _ hb0 hb1
  · rw [Windows.biolek, hkey]
    split_ifs with hi
    · obtain ⟨hb0, hb1⟩ := heven (x - 1) (by linarith) (by linarith)
      exact habs1 _ hb0 hb1
    · obtain ⟨hb0, hb1⟩ := heven (x - 0) (by linarith) (by linarith)
      exact habs1 _ hb0 hb1
  · rw [Windows.anusudha, Real.rpow_natCast]
    have hu0 : 0 ≤ x * x * x - x + 1 := by nlinarith
    have hu1 : x * x * x - x + 1 ≤ 1 := by nlinarith
    have hp0 : 0 ≤ (x * x * x - x + 1) ^ n := pow_nonneg hu0 n
    have hp1 : (x * x * x - x + 1) ^ n ≤ 1 := pow_le_one₀ hu0 hu1
    rw [abs_mul]
    have : |1 - 2 * (x * x * x - x + 1) ^ n| ≤ 1 :=
      abs_le.mpr ⟨by linarith, by linarith⟩
    calc |j| * |1 - 2 * (x * x * x - x + 1) ^ n| ≤ |j| * 1 :=
          mul_le_mul_of_nonneg_left this (abs_nonneg j)
      _ = |j| := mul_one _
      _ ≤ max 1 |j| := le_max_right 1 |j|

/-- Witness for the amended C8 at p = 1, x = 1/2, j = 1. -/
theorem window_functions_bounded_witness :
    1 ≤ (1 : ℕ) ∧ (0 : ℝ) ≤ 1 / 2 ∧ (1 / 2 : ℝ) ≤ 1 ∧
    Windows.joglekar 0 0 ((1 : ℕ) : ℝ) = 0 ∧
    Windows.joglekar (1 / 2) 0 ((1 : ℕ) : ℝ) = 1 :=
  ⟨le_refl 1, by norm_num, by norm_num,
   (window_functions_bounded 1 (le_refl 1) 0 1 (1 / 2) (by norm_num) (by norm_num)).1,
   (window_functions_bounded 1 (le_refl 1) 0 1 (1 / 2) (by norm_num) (by norm_num)).2.2.1⟩

/-! ### C7 : triangle-signal continuity at the phase flip -/

theorem jsTrunc_of_nonneg {x : ℝ} (hx : 0 ≤ x) : Signals.jsTrunc x = (⌊x⌋ : ℝ) := by
  rw [Signals.jsTrunc, if_pos hx]

theorem jsTrunc_of_neg {x : ℝ} (hx : x < 0) : Signals.jsTrunc x = (⌈x⌉ : ℝ) := by
  rw [Signals.jsTrunc, if_neg (not_le.mpr hx)]

/-- The JavaScript remainder is the identity on [0, m). -/
theorem jsMod_eq_self {a m : ℝ} (hm : 0 < m) (h0 : 0 ≤ a) (h1 : a < m) :
    Signals.jsMod a m = a := by
  rw [Signals.jsMod, jsTrunc_of_nonneg (div_nonneg h0 hm.le)]
  have hfl : ⌊a / m⌋ = 0 :=
    Int.floor_eq_zero_iff.mpr ⟨div_nonneg h0 hm.le, (div_lt_one hm).mpr h1⟩
  rw [hfl]
  norm_num

/-- The double-remainder normalisation of sawtooth maps k*m + r with
r in [0, m) to r, for every integer k — i.e. it is reduction modulo m. -/
theorem jsNorm_eq (k : ℤ) (r m : ℝ) (hm : 0 < m) (h0 : 0 ≤ r) (h1 : r < m) :
    Signals.jsMod (Signals.jsMod ((k : ℝ) * m + r) m + m) m = r := by
  have hmne : m ≠ 0 := ne_of_gt hm
  have hdiv : ((k : ℝ) * m + r) / m = r / m + (k : ℝ) := by
    field_simp
    ring
  have hfrac0 : 0 ≤ r / m := div_nonneg h0 hm.le
  have hfrac1 : r / m < 1 := (div_lt_one hm).mpr h1
  have hfl : ⌊r / m⌋ = 0 := Int.floor_eq_zero_iff.mpr ⟨hfrac0, hfrac1⟩
  by_cases hsgn : 0 ≤ ((k : ℝ) * m + r) / m
  · -- truncation is the floor, which equals k
    have hfirst : Signals.jsMod ((k : ℝ) * m + r) m = r := by
      rw [Signals.jsMod, jsTrunc_of_nonneg hsgn, hdiv, Int.floor_add_int, hfl]
      push_cast
      ring
    rw [hfirst, Signals.jsMod, jsTrunc_of_nonneg (by positivity)]
    have hdiv2 : (r + m) / m = r / m + (1 : ℤ) := by push_cast; field_simp
    rw [hdiv2, Int.floor_add_int, hfl]
    push_cast
    ring
  · -- negative quotient: truncation is the ceiling
    push_neg at hsgn
    by_cases hr : r = 0
    · subst hr
      have hceil : ⌈(0 : ℝ) / m + (k : ℝ)⌉ = k := by
        rw [zero_div, zero_add, Int.ceil_intCast]
      have hfirst : Signals.jsMod ((k : ℝ) * m + 0) m = 0 := by
        rw [Signals.jsMod, jsTrunc_of_neg hsgn, hdiv, hceil]
        ring
      rw [hfirst, Signals.jsMod, zero_add]
      rw [div_self hmne, jsTrunc_of_nonneg (by norm_num)]
      norm_num
    · have hrpos : 0 < r := lt_of_le_of_ne h0 (Ne.symm hr)
      have hc1 : ⌈r / m⌉ = 1 := by
        rw [Int.ceil_eq_iff]
        refine ⟨?_, ?_⟩
        · push_cast
          linarith [div_pos hrpos hm]
        · push_cast
          linarith
      have hceil : ⌈r / m + (k : ℝ)⌉ = 1 + k := by
        calc ⌈r / m + (k : ℝ)⌉ = ⌈r / m⌉ + k := Int.ceil_add_int _ _
          _ = 1 + k := by rw [hc1]
      have hfirst : Signals.jsMod ((k : ℝ) * m + r) m = r - m := by
        rw [Signals.jsMod, jsTrunc_of_neg hsgn, hdiv, hceil]
        push_cast
        ring
      rw [hfirst, sub_add_cancel]
      exact jsMod_eq_self hm h0 h1

/-- Near a zero of the triangle wave (the phases π·n + π/2), sawtooth is
the linear function ±2δ/π of the offset δ, with the sign fixed by the
parity of n. -/
theorem sawtooth_near (n : ℤ) (δ : ℝ) (hδ : |δ| < Real.pi / 2) :
    Signals.sawtooth (Real.pi * n + Real.pi / 2 + δ) =
      if Even n then 2 * δ / Real.pi else -(2 * δ / Real.pi) := by
  have hπ := Real.pi_pos
  obtain ⟨hδ1, hδ2⟩ := abs_lt.mp hδ
  have h2π : (0 : ℝ) < 2 * Real.pi := by linarith
  rcases Int.even_or_odd n with ⟨m, hm⟩ | ⟨m, hm⟩
  · have hphase : Real.pi * n + Real.pi / 2 + δ =
        (m : ℝ) * (2 * Real.pi) + (Real.pi / 2 + δ) := by
      rw [hm]; push_cast; ring
    have hev : Even n := ⟨m, hm⟩
    simp only [Signals.sawtooth]
    rw [hphase, jsNorm_eq m (Real.pi / 2 + δ) (2 * Real.pi) h2π
      (by linarith) (by linarith)]
    rw [if_pos (by linarith : Real.pi / 2 + δ ≤ Real.pi), if_pos hev]
    field_simp
    ring
  · have hphase : Real.pi * n + Real.pi / 2 + δ =
        (m : ℝ) * (2 * Real.pi) + (3 * Real.pi / 2 + δ) := by
      rw [hm]; push_cast; ring
    have hnev : ¬Even n := Int.not_even_iff_odd.mpr ⟨m, hm⟩
    simp only [Signals.sawtooth]
    rw [hphase, jsNorm_eq m (3 * Real.pi / 2 + δ) (2 * Real.pi) h2π
      (by linarith) (by linarith)]
    rw [if_neg (by push_neg; linarith : ¬(3 * Real.pi / 2 + δ ≤ Real.pi)),
      if_neg hnev]
    field_simp
    ring

/-- The triangle signal is bounded by max(|vp|, |vn|) times the absolute
sawtooth value at the same phase. -/
theorem triangle_abs_bound (params : Signals.SignalParams) (tMax t : ℝ) :
    |Signals.createTriangleSignal params tMax t| ≤
      max |params.vp| |params.vnVal| *
        |Signals.sawtooth (2 * Real.pi * params.freqVal * t + Real.pi / 2)| := by
  have habs := abs_nonneg (Signals.sawtooth (2 * Real.pi * params.freqVal * t + Real.pi / 2))
  simp only [Signals.createTriangleSignal]
  split_ifs with hflip hpos hpos
  · rw [abs_neg, abs_mul, abs_abs]
    exact mul_le_mul_of_nonneg_right (le_max_left _ _) habs
  · rw [abs_mul, abs_neg, abs_abs]
    exact mul_le_mul_of_nonneg_right (le_max_right _ _) habs
  · rw [abs_mul, abs_abs]
    exact mul_le_mul_of_nonneg_right (le_max_left _ _) habs
  · rw [abs_mul, abs_neg, abs_abs]
    exact mul_le_mul_of_nonneg_right (le_max_right _ _) habs

/-- C7 (amended): for any amplitudes (in particular symmetric vp = vn), any
frequency f > 0 and any tMax > 0 such that f * tMax is an integer, the
triangle signal is continuous at the phase-flip point t = tMax / 2, where
its value is 0 — so the left and right limits agree (both equal 0). -/
theorem triangle_flip_continuous (vp vn f tMax : ℝ) (n : ℤ)
    (hf : 0 < f) (ht : 0 < tMax) (hn : f * tMax = (n : ℝ)) :
    Filter.Tendsto
      (Signals.createTriangleSignal
        { vp := vp, vn := some vn, frequency := some f, period := Option.none } tMax)
      (nhds (tMax / 2))
      (nhds (Signals.createTriangleSignal
        { vp := vp, vn := some vn, frequency := some f, period := Option.none } tMax
        (tMax / 2))) ∧
    Signals.createTriangleSignal
      { vp := vp, vn := some vn, frequency := some f, period := Option.none } tMax
      (tMax / 2) = 0 := by
  have hπ := Real.pi_pos
  set P : Signals.SignalParams :=
    { vp := vp, vn := some vn, frequency := some f, period := Option.none } with hP
  have hfreq : P.freqVal = f := rfl
  have hδ0eq : 2 * Real.pi * P.freqVal * (tMax / 2) + Real.pi / 2 =
      Real.pi * (n : ℝ) + Real.pi / 2 + 0 := by
    rw [hfreq, ← hn]
    ring
  have hsaw0 : Signals.sawtooth (2 * Real.pi * P.freqVal * (tMax / 2) + Real.pi / 2) = 0 := by
    rw [hδ0eq, sawtooth_near n 0 (by rw [abs_zero]; linarith)]
    split_ifs <;> simp
  have hV0 : Signals.createTriangleSignal P tMax (tMax / 2) = 0 := by
    simp only [Signals.createTriangleSignal]
    rw [hsaw0]
    simp
  have hbound : ∀ t : ℝ, |t - tMax / 2| < 1 / (4 * f) →
      |Signals.createTriangleSignal P tMax t| ≤
        max |P.vp| |P.vnVal| * (4 * f * |t - tMax / 2|) := by
    intro t htb
    have hδeq : 2 * Real.pi * P.freqVal * t + Real.pi / 2 =
        Real.pi * (n : ℝ) + Real.pi / 2 + 2 * Real.pi * f * (t - tMax / 2) := by
      rw [hfreq, ← hn]
      ring
    have habsδ : |2 * Real.pi * f * (t - tMax / 2)| < Real.pi / 2 := by
      rw [abs_mul, abs_of_pos (by positivity : (0 : ℝ) < 2 * Real.pi * f)]
      calc 2 * Real.pi * f * |t - tMax / 2| < 2 * Real.pi * f * (1 / (4 * f)) :=
            mul_lt_mul_of_pos_left htb (by positivity)
        _ = Real.pi / 2 := by field_simp; ring
    have hsawt : |Signals.sawtooth (2 * Real.pi * P.freqVal * t + Real.pi / 2)| =
        2 * |2 * Real.pi * f * (t - tMax / 2)| / Real.pi := by
      rw [hδeq, sawtooth_near n _ habsδ]
      split_ifs
      · rw [abs_div, abs_mul, abs_two, abs_of_pos hπ]
      · rw [abs_neg, abs_div, abs_mul, abs_two, abs_of_pos hπ]
    have h1 := triangle_abs_bound P tMax t
    rw [hsawt] at h1
    have h2 : 2 * |2 * Real.pi * f * (t - tMax / 2)| / Real.pi =
        4 * f * |t - tMax / 2| := by
      rw [abs_mul, abs_of_pos (by positivity : (0 : ℝ) < 2 * Real.pi * f)]
      field_simp
      ring
    rw [h2] at h1
    exact h1
  have hg : Filter.Tendsto
      (fun t : ℝ => max |P.vp| |P.vnVal| * (4 * f * |t - tMax / 2|))
      (nhds (tMax / 2)) (nhds 0) := by
    have hcont : Continuous fun t : ℝ => max |P.vp| |P.vnVal| * (4 * f * |t - tMax / 2|) :=
      continuous_const.mul (continuous_const.mul ((continuous_id.sub continuous_const).abs))
    have h0 := hcont.tendsto (tMax / 2)
    simpa using h0
  have hgneg : Filter.Tendsto
      (fun t : ℝ => -(max |P.vp| |P.vnVal| * (4 * f * |t - tMax / 2|)))
      (nhds (tMax / 2)) (nhds 0) := by
    simpa using hg.neg
  have hev : ∀ᶠ t in nhds (tMax / 2), |t - tMax / 2| < 1 / (4 * f) :=
    eventually_abs_sub_lt _ (by positivity)
  refine ⟨?_, hV0⟩
  rw [hV0]
  refine tendsto_of_tendsto_of_tendsto_of_le_of_le' hgneg hg ?_ ?_
  · filter_upwards [hev] with t htb
    exact (abs_le.mp (hbound t htb)).1
  · filter_upwards [hev] with t htb
    exact (abs_le.mp (hbound t htb)).2

/-- Witness for the amended C7 with vp = vn = 1, f = 1, tMax = 1 (f * tMax
is the integer 1): the value at the flip point is 0. -/
theorem triangle_flip_continuous_witness :
    (0 : ℝ) < 1 ∧ (0 : ℝ) < 1 ∧ (1 : ℝ) * 1 = ((1 : ℤ) : ℝ) ∧
    Signals.createTriangleSignal
      { vp := 1, vn := some 1, frequency := some 1, period := Option.none } 1
      (1 / 2) = 0 :=
  ⟨by norm_num, by norm_num, by norm_num,
   by
    have h := (triangle_flip_continuous 1 1 1 1 1 (by norm_num) (by norm_num)
      (by norm_num)).2
    simpa using h⟩

/-- C7 (claim as stated is refuted): with symmetric amplitudes vp = vn = 1,
frequency 1 > 0 and tMax = 1/2 > 0 (so f * tMax = 1/2 is not an integer),
the triangle signal has no common one-sided limit at the flip point
tMax / 2 = 1/4: the left limit is 1 and the right limit is -1, a jump of
height 2. -/
theorem triangle_flip_discontinuous_counterexample :
    (0 : ℝ) < 1 ∧ (0 : ℝ) < 1 / 2 ∧
    ¬ ∃ L : ℝ,
      Filter.Tendsto
        (Signals.createTriangleSignal
          { vp := 1, vn := some 1, frequency := some 1, period := Option.none } (1 / 2))
        (𝓝[<] ((1 : ℝ) / 4)) (nhds L) ∧
      Filter.Tendsto
        (Signals.createTriangleSignal
          { vp := 1, vn := some 1, frequency := some 1, period := Option.none } (1 / 2))
        (𝓝[>] ((1 : ℝ) / 4)) (nhds L) := by
  have hπ := Real.pi_pos
  set P1 : Signals.SignalParams :=
    { vp := 1, vn := some 1, frequency := some 1, period := Option.none } with hP1
  have hfreq : P1.freqVal = 1 := rfl
  have hvn : P1.vnVal = 1 := rfl
  have hvp : P1.vp = 1 := rfl
  -- left of the flip point the signal is 4t
  have heqL : ∀ t ∈ Set.Ioo (0 : ℝ) (1 / 4),
      Signals.createTriangleSignal P1 (1 / 2) t = 4 * t := by
    intro t ht
    obtain ⟨ht0, ht1⟩ := ht
    have hphase : 2 * Real.pi * P1.freqVal * t + Real.pi / 2 =
        Real.pi * ((0 : ℤ) : ℝ) + Real.pi / 2 + 2 * Real.pi * t := by
      rw [hfreq]
      push_cast
      ring
    have habsδ : |2 * Real.pi * t| < Real.pi / 2 := by
      rw [abs_of_pos (by positivity)]
      nlinarith
    have hsaw : Signals.sawtooth (2 * Real.pi * P1.freqVal * t + Real.pi / 2) = 4 * t := by
      rw [hphase, sawtooth_near 0 (2 * Real.pi * t) habsδ, if_pos even_zero]
      field_simp
      ring
    simp only [Signals.createTriangleSignal]
    rw [hsaw, hvn, abs_of_pos (by linarith : (0 : ℝ) < 4 * t)]
    rw [if_neg (by push_neg; linarith : ¬t > 1 / 2 / 2)]
    rw [if_pos (by linarith : (1 : ℝ) * (4 * t) > 0)]
    ring
  -- right of the flip point the signal is 4t - 2
  have heqR : ∀ t ∈ Set.Ioo ((1 : ℝ) / 4) (1 / 2),
      Signals.createTriangleSignal P1 (1 / 2) t = 4 * t - 2 := by
    intro t ht
    obtain ⟨ht0, ht1⟩ := ht
    have hphase : 2 * Real.pi * P1.freqVal * t + Real.pi / 2 =
        Real.pi * ((1 : ℤ) : ℝ) + Real.pi / 2 + (2 * Real.pi * t - Real.pi) := by
      rw [hfreq]
      push_cast
      ring
    have hgt : 2 * Real.pi * (1 / 4) < 2 * Real.pi * t :=
      mul_lt_mul_of_pos_left ht0 (by positivity)
    have hlt : 2 * Real.pi * t < 2 * Real.pi * (1 / 2) :=
      mul_lt_mul_of_pos_left ht1 (by positivity)
    have habsδ : |2 * Real.pi * t - Real.pi| < Real.pi / 2 := by
      rw [abs_lt]
      constructor <;> nlinarith
    have hodd : ¬Even (1 : ℤ) := Int.not_even_iff_odd.mpr odd_one
    have hsaw : Signals.sawtooth (2 * Real.pi * P1.freqVal * t + Real.pi / 2) =
        2 - 4 * t := by
      rw [hphase, sawtooth_near 1 (2 * Real.pi * t - Real.pi) habsδ, if_neg hodd]
      field_simp
      ring
    simp only [Signals.createTriangleSignal]
    rw [hsaw, hvn, abs_of_pos (by linarith : (0 : ℝ) < 2 - 4 * t)]
    rw [if_pos (by linarith : t > 1 / 2 / 2)]
    rw [if_neg (by push_neg; nlinarith : ¬-(1 * (2 - 4 * t)) > 0)]
    ring
  have hmemL : Set.Ioo (0 : ℝ) (1 / 4) ∈ 𝓝[<] ((1 : ℝ) / 4) :=
    Ioo_mem_nhdsWithin_Iio ⟨by norm_num, le_refl _⟩
  have hmemR : Set.Ioo ((1 : ℝ) / 4) (1 / 2) ∈ 𝓝[>] ((1 : ℝ) / 4) :=
    Ioo_mem_nhdsWithin_Ioi ⟨le_refl _, by norm_num⟩
  have hlinL : Filter.Tendsto (fun t : ℝ => 4 * t) (𝓝[<] ((1 : ℝ) / 4)) (nhds 1) := by
    have hc : Continuous fun t : ℝ => 4 * t := continuous_const.mul continuous_id
    have h0 : Filter.Tendsto (fun t : ℝ => 4 * t) (𝓝[<] ((1 : ℝ) / 4))
        (nhds (4 * (1 / 4))) :=
      (hc.tendsto (1 / 4)).mono_left nhdsWithin_le_nhds
    norm_num at h0
    exact h0
  have hlinR : Filter.Tendsto (fun t : ℝ => 4 * t - 2) (𝓝[>] ((1 : ℝ) / 4))
      (nhds (-1)) := by
    have hc : Continuous fun t : ℝ => 4 * t - 2 :=
      (continuous_const.mul continuous_id).sub continuous_const
    have h0 : Filter.Tendsto (fun t : ℝ => 4 * t - 2) (𝓝[>] ((1 : ℝ) / 4))
        (nhds (4 * (1 / 4) - 2)) :=
      (hc.tendsto (1 / 4)).mono_left nhdsWithin_le_nhds
    norm_num at h0
    exact h0
  have hleft : Filter.Tendsto (Signals.createTriangleSignal P1 (1 / 2))
      (𝓝[<] ((1 : ℝ) / 4)) (nhds 1) :=
    Filter.Tendsto.congr'
      (Filter.eventuallyEq_of_mem hmemL fun t ht => (heqL t ht).symm) hlinL
  have hright : Filter.Tendsto (Signals.createTriangleSignal P1 (1 / 2))
      (𝓝[>] ((1 : ℝ) / 4)) (nhds (-1)) :=
    Filter.Tendsto.congr'
      (Filter.eventuallyEq_of_mem hmemR fun t ht => (heqR t ht).symm) hlinR
  refine ⟨by norm_num, by norm_num, ?_⟩
  rintro ⟨L, hL, hR⟩
  have h1 : L = 1 := tendsto_nhds_unique hL hleft
  have h2 : L = -1 := tendsto_nhds_unique hR hright
  rw [h1] at h2
  norm_num at h2

end MemristorSim
